import Mathlib

/-!
Verification of the STM32F4 I2C master-mode transaction engine
(`source/i2c.c` of the kubos HAL).

The hardware is modelled as an oracle `Env`: flag readings are an arbitrary
function of a time counter that advances on every flag query, and data-register
reads draw from a byte stream indexed by a read counter.  Every register
operation performed by the driver (acknowledge enable/disable, POS bit, start
and stop generation, ADDR clearing, AF clearing, data-register reads and
writes, flag observations, inter-poll delays) is recorded in an event trace.
The C functions are translated one-to-one into state-passing Lean functions;
the theorems below are about the produced traces, the returned status codes
and the bytes transferred.
-/

set_option autoImplicit false

/-- Status flags of the I2C controller as queried by the driver. -/
inductive I2CFlag where
  | SB | ADDR | BTF | TXE | RXNE | BUSY | AF
deriving DecidableEq, Repr

/-- Return codes of the driver (the `KI2CStatus` values used in `i2c.c`). -/
inductive KI2CStatus where
  | I2C_OK
  | I2C_ERROR_NULL_HANDLE
  | I2C_ERROR_TIMEOUT
  | I2C_ERROR_ADDR_TIMEOUT
  | I2C_ERROR_BTF_TIMEOUT
  | I2C_ERROR_TXE_TIMEOUT
  | I2C_ERROR_NACK
  | I2C_ERROR_AF
deriving DecidableEq, Repr

open KI2CStatus

/-- Register operations and observations performed by the driver, in order. -/
inductive Ev where
  | ackEnable                      -- CR1 |= I2C_CR1_ACK
  | ackDisable                     -- CR1 &= ~I2C_CR1_ACK
  | posEnable                      -- CR1 |= I2C_CR1_POS
  | posDisable                     -- CR1 &= ~I2C_CR1_POS
  | start                          -- CR1 |= I2C_CR1_START
  | stop                           -- CR1 |= I2C_CR1_STOP
  | clearAddr                      -- __HAL_I2C_CLEAR_ADDRFLAG
  | clearAF                        -- __HAL_I2C_CLEAR_FLAG(AF)
  | writeDR (b : Nat)              -- Instance->DR = b
  | readDR (b : Nat)               -- b = Instance->DR
  | readFlag (f : I2CFlag) (v : Bool) -- __HAL_I2C_GET_FLAG observation
  | delay                          -- vTaskDelay(50)
deriving DecidableEq, Repr

/-- Hardware oracle: `flag t f` is the value of flag `f` at the `t`-th flag
query of the run, and `dr i` is the byte delivered by the `i`-th data-register
read. -/
structure Env where
  flag : Nat → I2CFlag → Bool
  dr : Nat → Nat

/-- Driver-visible state: the flag-query counter, the data-register read
counter, and the trace of register operations performed so far. -/
structure St where
  t : Nat
  d : Nat
  trace : List Ev
deriving DecidableEq, Repr

/-- Initial state with an empty trace. -/
def st0 : St := ⟨0, 0, []⟩

/-- Record a register operation. -/
def emit (ev : Ev) (s : St) : St := ⟨s.t, s.d, s.trace ++ [ev]⟩

/-- Query a status flag (`__HAL_I2C_GET_FLAG`): reads the oracle at the
current time, advances time, records the observation. -/
def getFlag (e : Env) (f : I2CFlag) (s : St) : Bool × St :=
  (e.flag s.t f, ⟨s.t + 1, s.d, s.trace ++ [Ev.readFlag f (e.flag s.t f)]⟩)

/-- Read the data register: consumes the next oracle byte and records it. -/
def readDRop (e : Env) (s : St) : Nat × St :=
  (e.dr s.d, ⟨s.t, s.d + 1, s.trace ++ [Ev.readDR (e.dr s.d)]⟩)

/-- Byte at offset `i` of the caller's buffer (`*ptr` after `i` increments). -/
def byteAt (buf : List Nat) (i : Nat) : Nat := buf.getD i 0

/-- Translation of `hal_i2c_check_flag_special` (i2c.c:582-607): while waiting
on BTF or TXE, a set AF flag is cleared and reported as a NACK; while waiting
on ADDR, a set AF flag triggers a stop condition, is cleared, and is reported
as `I2C_ERROR_AF`; any other flag reports no error. -/
def hal_i2c_check_flag_special (e : Env) (flag : I2CFlag) (s : St) : KI2CStatus × St :=
  if flag = I2CFlag.BTF ∨ flag = I2CFlag.TXE then
    let p := getFlag e I2CFlag.AF s
    if p.1 then (I2C_ERROR_NACK, emit Ev.clearAF p.2) else (I2C_OK, p.2)
  else if flag = I2CFlag.ADDR then
    let p := getFlag e I2CFlag.AF s
    if p.1 then (I2C_ERROR_AF, emit Ev.clearAF (emit Ev.stop p.2)) else (I2C_OK, p.2)
  else (I2C_OK, s)

/-- Poll loop of `hal_i2c_check_flag_timeout` (i2c.c:609-628).  The C loop
runs while the observed flag equals `status`; on each pass it first consults
`hal_i2c_check_flag_special`, then checks `count >= FLAG_CHECK_TIMEOUT`, then
delays.  `fuel` is the number of passes still allowed to continue; the C code
with `FLAG_CHECK_TIMEOUT = 100` corresponds to `fuel = 100` (101 classifier
calls, 100 delays). -/
def checkFlagLoop (e : Env) (flag : I2CFlag) (status : Bool) : Nat → St → KI2CStatus × St
  | 0, s =>
    let p := getFlag e flag s
    if p.1 = status then
      let q := hal_i2c_check_flag_special e flag p.2
      if q.1 ≠ I2C_OK then q else (I2C_ERROR_TIMEOUT, q.2)
    else (I2C_OK, p.2)
  | k + 1, s =>
    let p := getFlag e flag s
    if p.1 = status then
      let q := hal_i2c_check_flag_special e flag p.2
      if q.1 ≠ I2C_OK then q
      else checkFlagLoop e flag status k (emit Ev.delay q.2)
    else (I2C_OK, p.2)

/-- Translation of `hal_i2c_check_flag_timeout` (i2c.c:609-628) with its fixed
`FLAG_CHECK_TIMEOUT = 100` bound. -/
def hal_i2c_check_flag_timeout (e : Env) (flag : I2CFlag) (status : Bool) (s : St) :
    KI2CStatus × St :=
  checkFlagLoop e flag status 100 s

/-- Translation of `hal_i2c_check_addr_timeout` (i2c.c:549-558): re-tags a
generic timeout of the ADDR wait as `I2C_ERROR_ADDR_TIMEOUT`. -/
def hal_i2c_check_addr_timeout (e : Env) (flag : I2CFlag) (s : St) : KI2CStatus × St :=
  let p := hal_i2c_check_flag_timeout e flag false s
  match p.1 with
  | I2C_OK => (I2C_OK, p.2)
  | I2C_ERROR_TIMEOUT => (I2C_ERROR_ADDR_TIMEOUT, p.2)
  | r => (r, p.2)

/-- Translation of `hal_i2c_check_btf_timeout` (i2c.c:560-569). -/
def hal_i2c_check_btf_timeout (e : Env) (s : St) : KI2CStatus × St :=
  let p := hal_i2c_check_flag_timeout e I2CFlag.BTF false s
  match p.1 with
  | I2C_OK => (I2C_OK, p.2)
  | I2C_ERROR_TIMEOUT => (I2C_ERROR_BTF_TIMEOUT, p.2)
  | r => (r, p.2)

/-- Translation of `hal_i2c_check_txe_timeout` (i2c.c:571-580). -/
def hal_i2c_check_txe_timeout (e : Env) (s : St) : KI2CStatus × St :=
  let p := hal_i2c_check_flag_timeout e I2CFlag.TXE false s
  match p.1 with
  | I2C_OK => (I2C_OK, p.2)
  | I2C_ERROR_TIMEOUT => (I2C_ERROR_TXE_TIMEOUT, p.2)
  | r => (r, p.2)

/-- Translation of `hal_i2c_master_request_read` (i2c.c:631-653): enable
acknowledge, generate start, wait for SB, send the address byte with the read
bit (`I2C_7BIT_ADD_READ`), wait for ADDR with address-specific re-tagging.
`addr` is the already-shifted slave address. -/
def hal_i2c_master_request_read (e : Env) (addr : Nat) (s : St) : KI2CStatus × St :=
  let s1 := emit Ev.start (emit Ev.ackEnable s)
  let p := hal_i2c_check_flag_timeout e I2CFlag.SB false s1
  if p.1 ≠ I2C_OK then p
  else
    let s2 := emit (Ev.writeDR ((addr % 256) ||| 1)) p.2
    hal_i2c_check_addr_timeout e I2CFlag.ADDR s2

/-- Translation of `hal_i2c_master_request_write` (i2c.c:724-744): generate
start, wait for SB, send the address byte with the write bit
(`I2C_7BIT_ADD_WRITE`), wait for ADDR with address-specific re-tagging. -/
def hal_i2c_master_request_write (e : Env) (addr : Nat) (s : St) : KI2CStatus × St :=
  let s1 := emit Ev.start s
  let p := hal_i2c_check_flag_timeout e I2CFlag.SB false s1
  if p.1 ≠ I2C_OK then p
  else
    let s2 := emit (Ev.writeDR ((addr % 256) &&& 254)) p.2
    hal_i2c_check_addr_timeout e I2CFlag.ADDR s2

/-- Translation of `hal_i2c_master_setup_read` (i2c.c:655-721): busy wait,
POS disable, address phase, then the length-dependent switch.  Note the C
switch has arms for 0, 1 and 2 only; every other length (including 3, lengths
above 3 and negative lengths) takes the `default` arm. -/
def hal_i2c_master_setup_read (e : Env) (addr : Nat) (len : Int) (s : St) :
    KI2CStatus × St :=
  let slave_addr := (addr * 2) % 65536
  let p := hal_i2c_check_flag_timeout e I2CFlag.BUSY true s
  if p.1 ≠ I2C_OK then p
  else
    let s1 := emit Ev.posDisable p.2
    let q := hal_i2c_master_request_read e slave_addr s1
    if q.1 ≠ I2C_OK then q
    else
      if len = 0 then (I2C_OK, emit Ev.stop (emit Ev.clearAddr q.2))
      else if len = 1 then
        (I2C_OK, emit Ev.stop (emit Ev.clearAddr (emit Ev.ackDisable q.2)))
      else if len = 2 then
        (I2C_OK, emit Ev.clearAddr (emit Ev.posEnable (emit Ev.ackDisable q.2)))
      else (I2C_OK, emit Ev.clearAddr (emit Ev.ackEnable q.2))

/-- Translation of `hal_i2c_master_setup_write` (i2c.c:746-769): busy wait,
POS disable, address phase, then clear ADDR on success. -/
def hal_i2c_master_setup_write (e : Env) (addr : Nat) (s : St) : KI2CStatus × St :=
  let slave_addr := (addr * 2) % 65536
  let p := hal_i2c_check_flag_timeout e I2CFlag.BUSY true s
  if p.1 ≠ I2C_OK then p
  else
    let s1 := emit Ev.posDisable p.2
    let q := hal_i2c_master_request_write e slave_addr s1
    if q.1 = I2C_OK then (I2C_OK, emit Ev.clearAddr q.2) else q

/-- Translation of `hal_i2c_get_handle` (i2c.c:330-333): it returns
`&hal_i2c_bus[num]` unconditionally, with no bounds or registration check, so
it never yields NULL for any bus number. -/
def hal_i2c_get_handle (num : Nat) : Option Nat := some num

/-- Data loop of `kprv_i2c_master_write` (i2c.c:178-208), with the stop
condition generated on each data-phase error path.  `fuel` bounds the number
of loop iterations; since every iteration decrements `len` by at least 1, the
caller's `fuel = len.toNat` is exact. -/
def writeLoopF (e : Env) (buf : List Nat) : Nat → Nat → Int → St → KI2CStatus × St
  | 0, _, _, s => (I2C_OK, s)
  | fuel + 1, ofs, len, s =>
    if 0 < len then
      let p := hal_i2c_check_txe_timeout e s
      if p.1 ≠ I2C_OK then (p.1, emit Ev.stop p.2)
      else
        let s1 := emit (Ev.writeDR (byteAt buf ofs)) p.2
        let q := getFlag e I2CFlag.BTF s1
        if q.1 = true ∧ len - 1 ≠ 0 then
          let s2 := emit (Ev.writeDR (byteAt buf (ofs + 1))) q.2
          let r := hal_i2c_check_btf_timeout e s2
          if r.1 ≠ I2C_OK then (r.1, emit Ev.stop r.2)
          else writeLoopF e buf fuel (ofs + 2) (len - 2) r.2
        else
          let r := hal_i2c_check_btf_timeout e q.2
          if r.1 ≠ I2C_OK then (r.1, emit Ev.stop r.2)
          else writeLoopF e buf fuel (ofs + 1) (len - 1) r.2
    else (I2C_OK, s)

/-- Translation of `kprv_i2c_master_write` (i2c.c:164-214).  The handle lookup
never yields NULL (see `hal_i2c_get_handle` below), the setup failure path
returns without touching the bus further, and the loop exit path generates the
final stop condition. -/
def kprv_i2c_master_write (e : Env) (num : Nat) (addr : Nat) (buf : List Nat)
    (len : Int) (s : St) : KI2CStatus × St :=
  match hal_i2c_get_handle num with
  | none => (I2C_ERROR_NULL_HANDLE, s)
  | some _ =>
    let p := hal_i2c_master_setup_write e addr s
    if p.1 ≠ I2C_OK then p
    else
      let q := writeLoopF e buf len.toNat 0 len p.2
      if q.1 = I2C_OK then (I2C_OK, emit Ev.stop q.2) else q

/-- Data loop of `kprv_i2c_master_read` (i2c.c:232-324): the specialized
length-1/2/3 arms and the general (length above 3) arm with its opportunistic
second read when BTF is already set.  Returns the status, the bytes stored
through `ptr`, and the final state.  `fuel = len.toNat` is exact, as every
iteration decrements `len` by at least 1. -/
def readLoopF (e : Env) : Nat → Int → St → KI2CStatus × List Nat × St
  | 0, _, s => (I2C_OK, [], s)
  | fuel + 1, len, s =>
    if 0 < len then
      if len = 1 then
        let p := hal_i2c_check_flag_timeout e I2CFlag.RXNE true s
        if p.1 ≠ I2C_OK then (p.1, [], p.2)
        else
          let r := readDRop e p.2
          let rest := readLoopF e fuel (len - 1) r.2
          (rest.1, r.1 :: rest.2.1, rest.2.2)
      else if len = 2 then
        let p := hal_i2c_check_btf_timeout e s
        if p.1 ≠ I2C_OK then (p.1, [], p.2)
        else
          let r1 := readDRop e (emit Ev.stop p.2)
          let r2 := readDRop e r1.2
          let rest := readLoopF e fuel (len - 2) r2.2
          (rest.1, r1.1 :: r2.1 :: rest.2.1, rest.2.2)
      else if len = 3 then
        let p := hal_i2c_check_btf_timeout e s
        if p.1 ≠ I2C_OK then (p.1, [], p.2)
        else
          let r1 := readDRop e (emit Ev.ackDisable p.2)
          let q := hal_i2c_check_btf_timeout e r1.2
          if q.1 ≠ I2C_OK then (q.1, [r1.1], q.2)
          else
            let r2 := readDRop e (emit Ev.stop q.2)
            let r3 := readDRop e r2.2
            let rest := readLoopF e fuel (len - 3) r3.2
            (rest.1, r1.1 :: r2.1 :: r3.1 :: rest.2.1, rest.2.2)
      else
        let p := hal_i2c_check_flag_timeout e I2CFlag.RXNE true s
        if p.1 ≠ I2C_OK then (p.1, [], p.2)
        else
          let r1 := readDRop e p.2
          let q := getFlag e I2CFlag.BTF r1.2
          if q.1 then
            let r2 := readDRop e q.2
            let rest := readLoopF e fuel (len - 2) r2.2
            (rest.1, r1.1 :: r2.1 :: rest.2.1, rest.2.2)
          else
            let rest := readLoopF e fuel (len - 1) q.2
            (rest.1, r1.1 :: rest.2.1, rest.2.2)
    else (I2C_OK, [], s)

/-- Data loop of `kprv_i2c_master_read` at its exact fuel. -/
def readLoop (e : Env) (len : Int) (s : St) : KI2CStatus × List Nat × St :=
  readLoopF e len.toNat len s

/-- Translation of `kprv_i2c_master_read` (i2c.c:216-326). -/
def kprv_i2c_master_read (e : Env) (num : Nat) (addr : Nat) (len : Int) (s : St) :
    KI2CStatus × List Nat × St :=
  match hal_i2c_get_handle num with
  | none => (I2C_ERROR_NULL_HANDLE, [], s)
  | some _ =>
    let p := hal_i2c_master_setup_read e addr len s
    if p.1 ≠ I2C_OK then (p.1, [], p.2)
    else readLoop e len p.2

/-- Straight-line transcription of the specialized length-3/2/1/0 read tail
cases (the arms of the loop at i2c.c:232-324, executed once), used as the
target of the refinement theorem for reads of length above 3. -/
def readTail (e : Env) (len : Int) (s : St) : KI2CStatus × List Nat × St :=
  if len = 1 then
    let p := hal_i2c_check_flag_timeout e I2CFlag.RXNE true s
    if p.1 ≠ I2C_OK then (p.1, [], p.2)
    else
      let r := readDRop e p.2
      (I2C_OK, [r.1], r.2)
  else if len = 2 then
    let p := hal_i2c_check_btf_timeout e s
    if p.1 ≠ I2C_OK then (p.1, [], p.2)
    else
      let r1 := readDRop e (emit Ev.stop p.2)
      let r2 := readDRop e r1.2
      (I2C_OK, [r1.1, r2.1], r2.2)
  else if len = 3 then
    let p := hal_i2c_check_btf_timeout e s
    if p.1 ≠ I2C_OK then (p.1, [], p.2)
    else
      let r1 := readDRop e (emit Ev.ackDisable p.2)
      let q := hal_i2c_check_btf_timeout e r1.2
      if q.1 ≠ I2C_OK then (q.1, [r1.1], q.2)
      else
        let r2 := readDRop e (emit Ev.stop q.2)
        let r3 := readDRop e r2.2
        (I2C_OK, [r1.1, r2.1, r3.1], r3.2)
  else (I2C_OK, [], s)

/-- Error kind produced by the classifier for the flags it inspects. -/
def classifierErr : I2CFlag → Option KI2CStatus
  | I2CFlag.BTF => some I2C_ERROR_NACK
  | I2CFlag.TXE => some I2C_ERROR_NACK
  | I2CFlag.ADDR => some I2C_ERROR_AF
  | _ => none

/-- Oracle with a permanently set acknowledge-failure flag and all other
flags permanently clear. -/
def eC6 : Env :=
  ⟨fun _ f => match f with
    | I2CFlag.AF => true
    | _ => false,
   fun _ => 0⟩

/-- Oracle on which every flag always reads clear. -/
def eSBstuck : Env := ⟨fun _ _ => false, fun _ => 0⟩

/-- Oracle on which SB, ADDR, BTF and TXE always read set and the other
flags always read clear, so every wait of a transaction succeeds on its first
poll; the data register delivers bytes 10, 11, 12, ... -/
def eOk : Env :=
  ⟨fun _ f => match f with
    | I2CFlag.SB => true
    | I2CFlag.ADDR => true
    | I2CFlag.BTF => true
    | I2CFlag.TXE => true
    | _ => false,
   fun i => 10 + i⟩

/-- Oracle on which only SB and ADDR read set; in particular RXNE reads clear
on every poll (no byte has arrived), as on an idle bus after the address
phase. The data register delivers bytes 100, 101, ... -/
def eRxLow : Env :=
  ⟨fun _ f => match f with
    | I2CFlag.SB => true
    | I2CFlag.ADDR => true
    | _ => false,
   fun i => 100 + i⟩

/-- Events that a poll loop may produce without any register side effect:
flag observations and inter-poll delays. -/
def isPoll : Ev → Bool
  | Ev.readFlag _ _ => true
  | Ev.delay => true
  | _ => false

/-- Events that never generate a stop condition, write or read the data
register, or change the acknowledge/POS/ADDR configuration: poll events plus
the AF-flag clear performed by the error classifier. -/
def benign : Ev → Bool
  | Ev.readFlag _ _ => true
  | Ev.delay => true
  | Ev.clearAF => true
  | _ => false

/-- Stop-condition generation events. -/
def isStop : Ev → Bool
  | Ev.stop => true
  | _ => false

/-- Data-register write events. -/
def isWrDR : Ev → Bool
  | Ev.writeDR _ => true
  | _ => false

theorem poll_benign : ∀ ev : Ev, isPoll ev = true → benign ev = true := by
  intro ev h; cases ev <;> simp_all [isPoll, benign]

theorem benign_not_stop : ∀ ev : Ev, benign ev = true → isStop ev = false := by
  intro ev h; cases ev <;> simp_all [benign, isStop]

theorem benign_not_wr : ∀ ev : Ev, benign ev = true → isWrDR ev = false := by
  intro ev h; cases ev <;> simp_all [benign, isWrDR]

theorem all_poll_benign {l : List Ev} (h : l.all isPoll = true) : l.all benign = true := by
  simp only [List.all_eq_true] at h ⊢
  exact fun ev hev => poll_benign ev (h ev hev)

theorem all_benign_no_stop {l : List Ev} (h : l.all benign = true) :
    l.countP isStop = 0 := by
  rw [List.countP_eq_zero]
  simp only [List.all_eq_true] at h
  intro ev hev
  simp [benign_not_stop ev (h ev hev)]

theorem all_benign_no_wr {l : List Ev} (h : l.all benign = true) :
    l.countP isWrDR = 0 := by
  rw [List.countP_eq_zero]
  simp only [List.all_eq_true] at h
  intro ev hev
  simp [benign_not_wr ev (h ev hev)]

/-- Shape of a single error-classifier call: it only appends events to the
trace, never reads the data register, appends only benign events unless it is
the ADDR classifier, appends only poll events when it reports no error, and
never reports a timeout. -/
theorem special_shape (e : Env) (flag : I2CFlag) (s : St) :
    ∃ d, (hal_i2c_check_flag_special e flag s).2.trace = s.trace ++ d ∧
      (hal_i2c_check_flag_special e flag s).2.d = s.d ∧
      (flag ≠ I2CFlag.ADDR → d.all benign = true) ∧
      ((hal_i2c_check_flag_special e flag s).1 = I2C_OK → d.all isPoll = true) ∧
      (hal_i2c_check_flag_special e flag s).1 ≠ I2C_ERROR_TIMEOUT := by
  by_cases h1 : flag = I2CFlag.BTF ∨ flag = I2CFlag.TXE
  · cases h2 : e.flag s.t I2CFlag.AF
    · exact ⟨[Ev.readFlag I2CFlag.AF false], by
        simp [hal_i2c_check_flag_special, h1, getFlag, emit, h2, benign, isPoll]⟩
    · exact ⟨[Ev.readFlag I2CFlag.AF true, Ev.clearAF], by
        simp [hal_i2c_check_flag_special, h1, getFlag, emit, h2, benign, isPoll]⟩
  · by_cases h3 : flag = I2CFlag.ADDR
    · cases h2 : e.flag s.t I2CFlag.AF
      · exact ⟨[Ev.readFlag I2CFlag.AF false], by
          simp [hal_i2c_check_flag_special, h1, h3, getFlag, emit, h2, benign, isPoll]⟩
      · exact ⟨[Ev.readFlag I2CFlag.AF true, Ev.stop, Ev.clearAF], by
          simp [hal_i2c_check_flag_special, h1, h3, getFlag, emit, h2, benign, isPoll]⟩
    · exact ⟨[], by simp [hal_i2c_check_flag_special, h1, h3]⟩

theorem bool_ne_eq_not {v status : Bool} (h : ¬v = status) : v = !status := by
  cases v <;> cases status <;> simp_all

/-- Master shape lemma for the poll loop: the loop only appends to the trace,
never reads the data register, appends only benign events unless the waited
flag is ADDR (so in particular it never generates a stop condition in that
case), ends a successful wait with the observation of the flag in the desired
state preceded by poll events only, and produces only poll events on the
timeout path. -/
theorem checkFlagLoop_shape (e : Env) (flag : I2CFlag) (status : Bool) :
    ∀ (fuel : Nat) (s : St),
    ∃ d, (checkFlagLoop e flag status fuel s).2.trace = s.trace ++ d ∧
      (checkFlagLoop e flag status fuel s).2.d = s.d ∧
      (flag ≠ I2CFlag.ADDR → d.all benign = true) ∧
      ((checkFlagLoop e flag status fuel s).1 = I2C_OK →
        ∃ d0, d = d0 ++ [Ev.readFlag flag (!status)] ∧ d0.all isPoll = true) ∧
      ((checkFlagLoop e flag status fuel s).1 = I2C_ERROR_TIMEOUT →
        d.all isPoll = true) := by
  intro fuel
  induction fuel with
  | zero =>
    intro s
    by_cases hv : e.flag s.t flag = status
    · simp only [checkFlagLoop, getFlag, hv, eq_self_iff_true, if_true]
      obtain ⟨d1, ht1, hd1, hben1, hpoll1, hnt1⟩ :=
        special_shape e flag ⟨s.t + 1, s.d, s.trace ++ [Ev.readFlag flag status]⟩
      by_cases hq : (hal_i2c_check_flag_special e flag
          ⟨s.t + 1, s.d, s.trace ++ [Ev.readFlag flag status]⟩).1 = I2C_OK
      · simp only [hq, ne_eq, not_true, if_false]
        refine ⟨Ev.readFlag flag status :: d1, ?_, ?_, ?_, ?_, ?_⟩
        · simp [ht1]
        · simp [hd1]
        · intro hne
          simp only [List.all_cons, Bool.and_eq_true]
          exact ⟨by simp [benign], hben1 hne⟩
        · intro hok; simp at hok
        · intro _
          simp only [List.all_cons, Bool.and_eq_true]
          exact ⟨by simp [isPoll], hpoll1 hq⟩
      · rw [if_pos hq]
        refine ⟨Ev.readFlag flag status :: d1, ?_, ?_, ?_, ?_, ?_⟩
        · simp [ht1]
        · simp [hd1]
        · intro hne
          simp only [List.all_cons, Bool.and_eq_true]
          exact ⟨by simp [benign], hben1 hne⟩
        · intro hok; exact absurd hok hq
        · intro hto; exact absurd hto hnt1
    · simp only [checkFlagLoop, getFlag, if_neg hv]
      refine ⟨[Ev.readFlag flag (e.flag s.t flag)], by simp, by simp, ?_, ?_, by simp⟩
      · intro _; simp [benign]
      · intro _
        exact ⟨[], by simp [bool_ne_eq_not hv]⟩
  | succ k ih =>
    intro s
    by_cases hv : e.flag s.t flag = status
    · simp only [checkFlagLoop, getFlag, hv, eq_self_iff_true, if_true]
      obtain ⟨d1, ht1, hd1, hben1, hpoll1, hnt1⟩ :=
        special_shape e flag ⟨s.t + 1, s.d, s.trace ++ [Ev.readFlag flag status]⟩
      by_cases hq : (hal_i2c_check_flag_special e flag
          ⟨s.t + 1, s.d, s.trace ++ [Ev.readFlag flag status]⟩).1 = I2C_OK
      · simp only [hq, ne_eq, not_true, if_false]
        obtain ⟨d2, ht2, hd2, hben2, hok2, hto2⟩ :=
          ih (emit Ev.delay (hal_i2c_check_flag_special e flag
            ⟨s.t + 1, s.d, s.trace ++ [Ev.readFlag flag status]⟩).2)
        refine ⟨Ev.readFlag flag status :: (d1 ++ Ev.delay :: d2), ?_, ?_, ?_, ?_, ?_⟩
        · rw [ht2]; simp only [emit]; rw [ht1]; simp
        · rw [hd2]; simp only [emit]; rw [hd1]
        · intro hne
          simp only [List.all_cons, List.all_append, Bool.and_eq_true]
          exact ⟨by simp [benign], hben1 hne, by simp [benign], hben2 hne⟩
        · intro hok
          obtain ⟨d0, hd0, hp0⟩ := hok2 hok
          refine ⟨Ev.readFlag flag status :: (d1 ++ Ev.delay :: d0), ?_, ?_⟩
          · rw [hd0]; simp
          · simp only [List.all_cons, List.all_append, Bool.and_eq_true]
            exact ⟨by simp [isPoll], hpoll1 hq, by simp [isPoll], hp0⟩
        · intro hto
          simp only [List.all_cons, List.all_append, Bool.and_eq_true]
          exact ⟨by simp [isPoll], hpoll1 hq, by simp [isPoll], hto2 hto⟩
      · rw [if_pos hq]
        refine ⟨Ev.readFlag flag status :: d1, ?_, ?_, ?_, ?_, ?_⟩
        · simp [ht1]
        · simp [hd1]
        · intro hne
          simp only [List.all_cons, Bool.and_eq_true]
          exact ⟨by simp [benign], hben1 hne⟩
        · intro hok; exact absurd hok hq
        · intro hto; exact absurd hto hnt1
    · simp only [checkFlagLoop, getFlag, if_neg hv]
      refine ⟨[Ev.readFlag flag (e.flag s.t flag)], by simp, by simp, ?_, ?_, by simp⟩
      · intro _; simp [benign]
      · intro _
        exact ⟨[], by simp [bool_ne_eq_not hv]⟩

/-- Shape of `hal_i2c_check_flag_timeout` (the poll loop at its fixed fuel). -/
theorem checkFlagTimeout_shape (e : Env) (flag : I2CFlag) (status : Bool) (s : St) :
    ∃ d, (hal_i2c_check_flag_timeout e flag status s).2.trace = s.trace ++ d ∧
      (hal_i2c_check_flag_timeout e flag status s).2.d = s.d ∧
      (flag ≠ I2CFlag.ADDR → d.all benign = true) ∧
      ((hal_i2c_check_flag_timeout e flag status s).1 = I2C_OK →
        ∃ d0, d = d0 ++ [Ev.readFlag flag (!status)] ∧ d0.all isPoll = true) ∧
      ((hal_i2c_check_flag_timeout e flag status s).1 = I2C_ERROR_TIMEOUT →
        d.all isPoll = true) := by
  simpa [hal_i2c_check_flag_timeout] using checkFlagLoop_shape e flag status 100 s

/-- The BTF-timeout wrapper only re-tags the status; state is the inner wait state. -/
theorem btf_timeout_shape (e : Env) (s : St) :
    (hal_i2c_check_btf_timeout e s).2 = (hal_i2c_check_flag_timeout e I2CFlag.BTF false s).2 ∧
    ((hal_i2c_check_btf_timeout e s).1 = I2C_OK ↔
      (hal_i2c_check_flag_timeout e I2CFlag.BTF false s).1 = I2C_OK) := by
  cases h : (hal_i2c_check_flag_timeout e I2CFlag.BTF false s).1 <;>
    simp [hal_i2c_check_btf_timeout, h]

/-- The TXE-timeout wrapper only re-tags the status; state is the inner wait state. -/
theorem txe_timeout_shape (e : Env) (s : St) :
    (hal_i2c_check_txe_timeout e s).2 = (hal_i2c_check_flag_timeout e I2CFlag.TXE false s).2 ∧
    ((hal_i2c_check_txe_timeout e s).1 = I2C_OK ↔
      (hal_i2c_check_flag_timeout e I2CFlag.TXE false s).1 = I2C_OK) := by
  cases h : (hal_i2c_check_flag_timeout e I2CFlag.TXE false s).1 <;>
    simp [hal_i2c_check_txe_timeout, h]

/-- The ADDR-timeout wrapper only re-tags the status; state is the inner wait state. -/
theorem addr_timeout_shape (e : Env) (flag : I2CFlag) (s : St) :
    (hal_i2c_check_addr_timeout e flag s).2 = (hal_i2c_check_flag_timeout e flag false s).2 ∧
    ((hal_i2c_check_addr_timeout e flag s).1 = I2C_OK ↔
      (hal_i2c_check_flag_timeout e flag false s).1 = I2C_OK) := by
  cases h : (hal_i2c_check_flag_timeout e flag false s).1 <;>
    simp [hal_i2c_check_addr_timeout, h]

theorem special_result_btf (e : Env) (s : St) :
    (hal_i2c_check_flag_special e I2CFlag.BTF s).1 =
      (if e.flag s.t I2CFlag.AF then I2C_ERROR_NACK else I2C_OK) := by
  by_cases h : e.flag s.t I2CFlag.AF <;>
    simp [hal_i2c_check_flag_special, getFlag, emit, h]

theorem special_result_txe (e : Env) (s : St) :
    (hal_i2c_check_flag_special e I2CFlag.TXE s).1 =
      (if e.flag s.t I2CFlag.AF then I2C_ERROR_NACK else I2C_OK) := by
  by_cases h : e.flag s.t I2CFlag.AF <;>
    simp [hal_i2c_check_flag_special, getFlag, emit, h]

theorem special_result_addr (e : Env) (s : St) :
    (hal_i2c_check_flag_special e I2CFlag.ADDR s).1 =
      (if e.flag s.t I2CFlag.AF then I2C_ERROR_AF else I2C_OK) := by
  by_cases h : e.flag s.t I2CFlag.AF <;>
    simp [hal_i2c_check_flag_special, getFlag, emit, h]

theorem special_t_btf (e : Env) (s : St) :
    (hal_i2c_check_flag_special e I2CFlag.BTF s).2.t = s.t + 1 := by
  by_cases h : e.flag s.t I2CFlag.AF <;>
    simp [hal_i2c_check_flag_special, getFlag, emit, h]

theorem special_t_txe (e : Env) (s : St) :
    (hal_i2c_check_flag_special e I2CFlag.TXE s).2.t = s.t + 1 := by
  by_cases h : e.flag s.t I2CFlag.AF <;>
    simp [hal_i2c_check_flag_special, getFlag, emit, h]

theorem special_t_addr (e : Env) (s : St) :
    (hal_i2c_check_flag_special e I2CFlag.ADDR s).2.t = s.t + 1 := by
  by_cases h : e.flag s.t I2CFlag.AF <;>
    simp [hal_i2c_check_flag_special, getFlag, emit, h]

/-- Core induction for classifier-before-timeout priority: if the waited flag
is stuck in the waited-out state, the loop returns the classifier error as
soon as AF is observable at any of the AF polls (one per pass, including the
final pass), and returns the generic timeout exactly when AF is never
observable at those polls. -/
theorem c6_aux (e : Env) (flag : I2CFlag) (status : Bool) (err : KI2CStatus)
    (herr : err ≠ I2C_OK)
    (hsp : ∀ u : St, (hal_i2c_check_flag_special e flag u).1 =
      (if e.flag u.t I2CFlag.AF then err else I2C_OK))
    (hspt : ∀ u : St, (hal_i2c_check_flag_special e flag u).2.t = u.t + 1)
    (hstuck : ∀ t, e.flag t flag = status) :
    ∀ (fuel : Nat) (s : St),
      ((∃ k, k ≤ fuel ∧ e.flag (s.t + 2 * k + 1) I2CFlag.AF = true) →
        (checkFlagLoop e flag status fuel s).1 = err) ∧
      ((∀ k, k ≤ fuel → e.flag (s.t + 2 * k + 1) I2CFlag.AF = false) →
        (checkFlagLoop e flag status fuel s).1 = I2C_ERROR_TIMEOUT) := by
  intro fuel
  induction fuel with
  | zero =>
    intro s
    constructor
    · rintro ⟨k, hk, hAF⟩
      have hk0 : k = 0 := Nat.le_zero.mp hk
      subst hk0
      rw [show s.t + 2 * 0 + 1 = s.t + 1 from by omega] at hAF
      simp only [checkFlagLoop, getFlag, hstuck, eq_self_iff_true, if_true]
      have h1 := hsp ⟨s.t + 1, s.d, s.trace ++ [Ev.readFlag flag status]⟩
      simp only [hAF, if_true] at h1
      rw [if_pos (by simp [h1, herr])]
      exact h1
    · intro h
      have hAF : e.flag (s.t + 1) I2CFlag.AF = false := by
        have := h 0 (Nat.le_refl 0)
        rwa [show s.t + 2 * 0 + 1 = s.t + 1 from by omega] at this
      simp only [checkFlagLoop, getFlag, hstuck, eq_self_iff_true, if_true]
      have h1 := hsp ⟨s.t + 1, s.d, s.trace ++ [Ev.readFlag flag status]⟩
      simp only [hAF, if_false] at h1
      rw [if_neg (by simp [h1])]
  | succ k ih =>
    intro s
    have h1 := hsp ⟨s.t + 1, s.d, s.trace ++ [Ev.readFlag flag status]⟩
    have h2 := hspt ⟨s.t + 1, s.d, s.trace ++ [Ev.readFlag flag status]⟩
    constructor
    · rintro ⟨j, hj, hAF⟩
      by_cases haf : e.flag (s.t + 1) I2CFlag.AF = true
      · simp only [checkFlagLoop, getFlag, hstuck, eq_self_iff_true, if_true]
        simp only [haf, if_true] at h1
        rw [if_pos (by simp [h1, herr])]
        exact h1
      · have haff : e.flag (s.t + 1) I2CFlag.AF = false := by
          simpa using haf
        have hj0 : j ≠ 0 := by
          intro h0
          subst h0
          rw [show s.t + 2 * 0 + 1 = s.t + 1 from by omega] at hAF
          exact absurd hAF (by simp [haff])
        simp only [checkFlagLoop, getFlag, hstuck, eq_self_iff_true, if_true]
        simp only [haff, if_false] at h1
        rw [if_neg (by simp [h1])]
        refine (ih _).1 ⟨j - 1, by omega, ?_⟩
        simp only [emit, h2]
        rw [show s.t + 1 + 1 + 2 * (j - 1) + 1 = s.t + 2 * j + 1 from by omega]
        exact hAF
    · intro h
      have hAF : e.flag (s.t + 1) I2CFlag.AF = false := by
        have := h 0 (Nat.zero_le _)
        rwa [show s.t + 2 * 0 + 1 = s.t + 1 from by omega] at this
      simp only [checkFlagLoop, getFlag, hstuck, eq_self_iff_true, if_true]
      simp only [hAF, if_false] at h1
      rw [if_neg (by simp [h1])]
      refine (ih _).2 ?_
      intro j hjk
      simp only [emit, h2]
      rw [show s.t + 1 + 1 + 2 * j + 1 = s.t + 2 * (j + 1) + 1 from by omega]
      exact h (j + 1) (by omega)

/-- The error classifier never fires for flags it does not inspect, so a wait
on such a flag that is stuck in the waited-out state always times out. -/
theorem stuck_other_flag_timeout (e : Env) (flag : I2CFlag) (status : Bool)
    (hsp : ∀ u : St, hal_i2c_check_flag_special e flag u = (I2C_OK, u))
    (hstuck : ∀ t, e.flag t flag = status) :
    ∀ (fuel : Nat) (s : St),
      (checkFlagLoop e flag status fuel s).1 = I2C_ERROR_TIMEOUT := by
  intro fuel
  induction fuel with
  | zero =>
    intro s
    simp only [checkFlagLoop, getFlag, hstuck, eq_self_iff_true, if_true, hsp]
    rw [if_neg (by simp)]
  | succ k ih =>
    intro s
    simp only [checkFlagLoop, getFlag, hstuck, eq_self_iff_true, if_true, hsp]
    rw [if_neg (by simp)]
    exact ih _

theorem special_sb (e : Env) (u : St) :
    hal_i2c_check_flag_special e I2CFlag.SB u = (I2C_OK, u) := by
  simp [hal_i2c_check_flag_special]

/-- C6: on every flag wait, the error classifier runs on each of the 101
polling passes before the 100-iteration bound is checked, so whenever an
acknowledge failure is observable at any of the per-pass AF polls (including
the final, bound-exhausting pass) the classifier error is returned instead of
the generic timeout; the generic timeout is returned only when the flag never
reaches the desired state and the classifier never fires on any pass. -/
theorem c6_classifier_wins_over_timeout (e : Env) (flag : I2CFlag) (status : Bool)
    (err : KI2CStatus) (s : St)
    (hcl : classifierErr flag = some err)
    (hstuck : ∀ t, e.flag t flag = status) :
    ((∃ k, k ≤ 100 ∧ e.flag (s.t + 2 * k + 1) I2CFlag.AF = true) →
      (hal_i2c_check_flag_timeout e flag status s).1 = err) ∧
    ((∀ k, k ≤ 100 → e.flag (s.t + 2 * k + 1) I2CFlag.AF = false) →
      (hal_i2c_check_flag_timeout e flag status s).1 = I2C_ERROR_TIMEOUT) := by
  cases flag with
  | BTF =>
    have herr : err = I2C_ERROR_NACK := by simpa [classifierErr] using hcl.symm
    subst herr
    simpa [hal_i2c_check_flag_timeout] using
      c6_aux e I2CFlag.BTF status I2C_ERROR_NACK (by simp)
        (fun u => special_result_btf e u) (fun u => special_t_btf e u) hstuck 100 s
  | TXE =>
    have herr : err = I2C_ERROR_NACK := by simpa [classifierErr] using hcl.symm
    subst herr
    simpa [hal_i2c_check_flag_timeout] using
      c6_aux e I2CFlag.TXE status I2C_ERROR_NACK (by simp)
        (fun u => special_result_txe e u) (fun u => special_t_txe e u) hstuck 100 s
  | ADDR =>
    have herr : err = I2C_ERROR_AF := by simpa [classifierErr] using hcl.symm
    subst herr
    simpa [hal_i2c_check_flag_timeout] using
      c6_aux e I2CFlag.ADDR status I2C_ERROR_AF (by simp)
        (fun u => special_result_addr e u) (fun u => special_t_addr e u) hstuck 100 s
  | SB => simp [classifierErr] at hcl
  | RXNE => simp [classifierErr] at hcl
  | BUSY => simp [classifierErr] at hcl
  | AF => simp [classifierErr] at hcl

/-- Witness for `c6_classifier_wins_over_timeout`: a BTF wait whose flag never
sets while AF is set returns the NACK error, not the generic timeout. -/
theorem c6_witness :
    (hal_i2c_check_flag_timeout eC6 I2CFlag.BTF false st0).1 = I2C_ERROR_NACK :=
  (c6_classifier_wins_over_timeout eC6 I2CFlag.BTF false I2C_ERROR_NACK st0 rfl
    (fun _ => rfl)).1 ⟨0, by omega, rfl⟩

/-- C7: while waiting on a data-progress flag (BTF or TXE), a set AF flag is
cleared and reported as a NACK with no stop condition generated; while
waiting on ADDR, a set AF flag triggers a stop condition, is cleared, and is
reported as the address-acknowledge error; in every other case the classifier
reports no error. -/
theorem c7_check_flag_special_cases (e : Env) (s : St) (flag : I2CFlag) :
    ((match flag with
      | I2CFlag.BTF | I2CFlag.TXE =>
        if e.flag s.t I2CFlag.AF
          then (hal_i2c_check_flag_special e flag s).1 = I2C_ERROR_NACK ∧
            (hal_i2c_check_flag_special e flag s).2.trace =
              s.trace ++ [Ev.readFlag I2CFlag.AF true, Ev.clearAF]
          else (hal_i2c_check_flag_special e flag s).1 = I2C_OK
      | I2CFlag.ADDR =>
        if e.flag s.t I2CFlag.AF
          then (hal_i2c_check_flag_special e flag s).1 = I2C_ERROR_AF ∧
            (hal_i2c_check_flag_special e flag s).2.trace =
              s.trace ++ [Ev.readFlag I2CFlag.AF true, Ev.stop, Ev.clearAF]
          else (hal_i2c_check_flag_special e flag s).1 = I2C_OK
      | _ => hal_i2c_check_flag_special e flag s = (I2C_OK, s)) : Prop) := by
  cases flag <;> by_cases h : e.flag s.t I2CFlag.AF <;>
    simp [hal_i2c_check_flag_special, getFlag, emit, h]

/-- C8 counterexample: a write and a read transaction whose SB wait exhausts
its polling bound return `I2C_ERROR_TIMEOUT` — the generic timeout kind, the
same value a generic flag wait returns — not a start-specific timeout kind
(no such re-tagging exists in the code, unlike the ADDR/BTF/TXE waits). -/
theorem c8_counterexample :
    (kprv_i2c_master_write eSBstuck 1 80 [] 0 st0).1 = I2C_ERROR_TIMEOUT ∧
    (kprv_i2c_master_read eSBstuck 1 80 1 st0).1 = I2C_ERROR_TIMEOUT := by
  constructor <;> decide

/-- C8 amended: when the SB (start-condition-sent) wait exhausts its polling
bound, the address-phase helpers return the generic `I2C_ERROR_TIMEOUT`
unchanged; the stall while waiting for the start condition is not re-tagged
with any start-specific kind. -/
theorem c8_amended_sb_timeout_is_generic (e : Env) (addr : Nat) (s : St)
    (hstuck : ∀ t, e.flag t I2CFlag.SB = false) :
    (hal_i2c_master_request_write e addr s).1 = I2C_ERROR_TIMEOUT ∧
    (hal_i2c_master_request_read e addr s).1 = I2C_ERROR_TIMEOUT := by
  have hw := stuck_other_flag_timeout e I2CFlag.SB false (special_sb e) hstuck 100
  constructor
  · simp [hal_i2c_master_request_write, hal_i2c_check_flag_timeout, hw]
  · simp [hal_i2c_master_request_read, hal_i2c_check_flag_timeout, hw]

/-- Witness for `c8_amended_sb_timeout_is_generic` on a concrete oracle. -/
theorem c8_amended_witness :
    (hal_i2c_master_request_write eSBstuck 80 st0).1 = I2C_ERROR_TIMEOUT ∧
    (hal_i2c_master_request_read eSBstuck 80 st0).1 = I2C_ERROR_TIMEOUT :=
  c8_amended_sb_timeout_is_generic eSBstuck 80 st0 (fun _ => rfl)

theorem readLoopF_zero_len (e : Env) (fuel : Nat) (len : Int) (s : St) (h : len ≤ 0) :
    readLoopF e fuel len s = (I2C_OK, [], s) := by
  cases fuel with
  | zero => simp [readLoopF]
  | succ k =>
    simp only [readLoopF]
    rw [if_neg (by omega : ¬(0 : Int) < len)]

/-- The data loop run at a remaining length of 3, 2, 1 or 0 is exactly the
straight-line specialized tail. -/
theorem readLoopF_tail (e : Env) (fuel : Nat) (r : Int) (s : St)
    (h0 : 0 ≤ r) (h3 : r ≤ 3) (hf : r.toNat ≤ fuel) :
    readLoopF e fuel r s = readTail e r s := by
  have hr : r = 0 ∨ r = 1 ∨ r = 2 ∨ r = 3 := by omega
  rcases hr with rfl | rfl | rfl | rfl
  · rw [readLoopF_zero_len e fuel 0 s (by omega)]
    simp [readTail]
  · obtain ⟨k, rfl⟩ : ∃ k, fuel = k + 1 := ⟨fuel - 1, by omega⟩
    simp [readLoopF, readTail, readLoopF_zero_len]
  · obtain ⟨k, rfl⟩ : ∃ k, fuel = k + 1 := ⟨fuel - 1, by omega⟩
    simp [readLoopF, readTail, readLoopF_zero_len]
  · obtain ⟨k, rfl⟩ : ∃ k, fuel = k + 1 := ⟨fuel - 1, by omega⟩
    simp [readLoopF, readTail, readLoopF_zero_len]

theorem readLoop_tail (e : Env) (r : Int) (s : St) (h0 : 0 ≤ r) (h3 : r ≤ 3) :
    readLoop e r s = readTail e r s :=
  readLoopF_tail e r.toNat r s h0 h3 (Nat.le_refl _)

theorem ok_delta_all_poll {d : List Ev} {flag : I2CFlag} {status : Bool}
    (h : ∃ d0, d = d0 ++ [Ev.readFlag flag (!status)] ∧ d0.all isPoll = true) :
    d.all isPoll = true := by
  obtain ⟨d0, rfl, hp⟩ := h
  simp [List.all_append, hp, isPoll]

/-- Shape of a successful read-direction address phase: acknowledge enable and
start first, then the SB poll, then the address byte with the read bit, then
the ADDR poll; no data-register read and nothing but poll events around the
three register operations. -/
theorem request_read_shape (e : Env) (addr : Nat) (s : St)
    (h : (hal_i2c_master_request_read e addr s).1 = I2C_OK) :
    ∃ w2 w3, w2.all isPoll = true ∧ w3.all isPoll = true ∧
      (hal_i2c_master_request_read e addr s).2.d = s.d ∧
      (hal_i2c_master_request_read e addr s).2.trace =
        s.trace ++ [Ev.ackEnable, Ev.start] ++ w2 ++
          [Ev.writeDR ((addr % 256) ||| 1)] ++ w3 := by
  by_cases hp : (hal_i2c_check_flag_timeout e I2CFlag.SB false
      (emit Ev.start (emit Ev.ackEnable s))).1 = I2C_OK
  · obtain ⟨d2, ht2, hd2, _, hok2, _⟩ :=
      checkFlagTimeout_shape e I2CFlag.SB false (emit Ev.start (emit Ev.ackEnable s))
    have hres : hal_i2c_master_request_read e addr s =
        hal_i2c_check_addr_timeout e I2CFlag.ADDR
          (emit (Ev.writeDR ((addr % 256) ||| 1))
            (hal_i2c_check_flag_timeout e I2CFlag.SB false
              (emit Ev.start (emit Ev.ackEnable s))).2) := by
      simp [hal_i2c_master_request_read, hp]
    rw [hres] at h ⊢
    obtain ⟨hast, hai⟩ := addr_timeout_shape e I2CFlag.ADDR
      (emit (Ev.writeDR ((addr % 256) ||| 1))
        (hal_i2c_check_flag_timeout e I2CFlag.SB false
          (emit Ev.start (emit Ev.ackEnable s))).2)
    have hinner := hai.mp h
    obtain ⟨d3, ht3, hd3, _, hok3, _⟩ :=
      checkFlagTimeout_shape e I2CFlag.ADDR false
        (emit (Ev.writeDR ((addr % 256) ||| 1))
          (hal_i2c_check_flag_timeout e I2CFlag.SB false
            (emit Ev.start (emit Ev.ackEnable s))).2)
    refine ⟨d2, d3, ok_delta_all_poll (hok2 hp), ok_delta_all_poll (hok3 hinner), ?_, ?_⟩
    · simp only [emit] at hast hd3 hd2 ⊢
      rw [hast, hd3, hd2]
    · simp only [emit] at hast ht3 ht2 ⊢
      rw [hast, ht3, ht2]
      simp
  · exfalso
    apply hp
    simpa [hal_i2c_master_request_read, if_pos hp] using h

/-- Shape of a successful write-direction address phase. -/
theorem request_write_shape (e : Env) (addr : Nat) (s : St)
    (h : (hal_i2c_master_request_write e addr s).1 = I2C_OK) :
    ∃ w2 w3, w2.all isPoll = true ∧ w3.all isPoll = true ∧
      (hal_i2c_master_request_write e addr s).2.d = s.d ∧
      (hal_i2c_master_request_write e addr s).2.trace =
        s.trace ++ [Ev.start] ++ w2 ++
          [Ev.writeDR ((addr % 256) &&& 254)] ++ w3 := by
  by_cases hp : (hal_i2c_check_flag_timeout e I2CFlag.SB false (emit Ev.start s)).1 = I2C_OK
  · obtain ⟨d2, ht2, hd2, _, hok2, _⟩ :=
      checkFlagTimeout_shape e I2CFlag.SB false (emit Ev.start s)
    have hres : hal_i2c_master_request_write e addr s =
        hal_i2c_check_addr_timeout e I2CFlag.ADDR
          (emit (Ev.writeDR ((addr % 256) &&& 254))
            (hal_i2c_check_flag_timeout e I2CFlag.SB false (emit Ev.start s)).2) := by
      simp [hal_i2c_master_request_write, hp]
    rw [hres] at h ⊢
    obtain ⟨hast, hai⟩ := addr_timeout_shape e I2CFlag.ADDR
      (emit (Ev.writeDR ((addr % 256) &&& 254))
        (hal_i2c_check_flag_timeout e I2CFlag.SB false (emit Ev.start s)).2)
    have hinner := hai.mp h
    obtain ⟨d3, ht3, hd3, _, hok3, _⟩ :=
      checkFlagTimeout_shape e I2CFlag.ADDR false
        (emit (Ev.writeDR ((addr % 256) &&& 254))
          (hal_i2c_check_flag_timeout e I2CFlag.SB false (emit Ev.start s)).2)
    refine ⟨d2, d3, ok_delta_all_poll (hok2 hp), ok_delta_all_poll (hok3 hinner), ?_, ?_⟩
    · simp only [emit] at hast hd3 hd2 ⊢
      rw [hast, hd3, hd2]
    · simp only [emit] at hast ht3 ht2 ⊢
      rw [hast, ht3, ht2]
  · exfalso
    apply hp
    simpa [hal_i2c_master_request_write, if_pos hp] using h

/-- Shape of a successful read setup: busy poll, POS disable, address phase,
then the length-selected arm of the switch; the only non-poll events are the
ones listed, in this order, and no data-register access happens. -/
theorem setup_read_shape (e : Env) (addr : Nat) (len : Int) (s : St)
    (h : (hal_i2c_master_setup_read e addr len s).1 = I2C_OK) :
    ∃ w1 w2 w3, w1.all isPoll = true ∧ w2.all isPoll = true ∧ w3.all isPoll = true ∧
      (hal_i2c_master_setup_read e addr len s).2.d = s.d ∧
      (hal_i2c_master_setup_read e addr len s).2.trace =
        s.trace ++ w1 ++ [Ev.posDisable, Ev.ackEnable, Ev.start] ++ w2 ++
          [Ev.writeDR ((addr * 2 % 65536 % 256) ||| 1)] ++ w3 ++
          (if len = 0 then [Ev.clearAddr, Ev.stop]
           else if len = 1 then [Ev.ackDisable, Ev.clearAddr, Ev.stop]
           else if len = 2 then [Ev.ackDisable, Ev.posEnable, Ev.clearAddr]
           else [Ev.ackEnable, Ev.clearAddr]) := by
  by_cases hb : (hal_i2c_check_flag_timeout e I2CFlag.BUSY true s).1 = I2C_OK
  · obtain ⟨d1, htb, hdb, _, hokb, _⟩ := checkFlagTimeout_shape e I2CFlag.BUSY true s
    by_cases hreq : (hal_i2c_master_request_read e (addr * 2 % 65536)
        (emit Ev.posDisable (hal_i2c_check_flag_timeout e I2CFlag.BUSY true s).2)).1 =
        I2C_OK
    · obtain ⟨w2, w3, hw2, hw3, hqd, hqt⟩ := request_read_shape e (addr * 2 % 65536)
        (emit Ev.posDisable (hal_i2c_check_flag_timeout e I2CFlag.BUSY true s).2) hreq
      refine ⟨d1, w2, w3, ok_delta_all_poll (hokb hb), hw2, hw3, ?_, ?_⟩
      · simp only [hal_i2c_master_setup_read, hb, hreq, ne_eq, not_true, if_false]
        simp only [emit] at hqd hdb ⊢
        split_ifs <;> simp_all
      · simp only [hal_i2c_master_setup_read, hb, hreq, ne_eq, not_true, if_false]
        simp only [emit] at hqt htb ⊢
        split_ifs <;> (rw [hqt, htb]; simp)
    · exfalso
      apply hreq
      have hred : hal_i2c_master_setup_read e addr len s =
          hal_i2c_master_request_read e (addr * 2 % 65536)
            (emit Ev.posDisable (hal_i2c_check_flag_timeout e I2CFlag.BUSY true s).2) := by
        simp [hal_i2c_master_setup_read, hb, if_pos hreq]
      rw [hred] at h
      exact h
  · exfalso
    apply hb
    simpa [hal_i2c_master_setup_read, if_pos hb] using h


/-- A successful public read decomposes into a successful setup followed by
the data loop run from the setup state. -/
theorem kprv_read_ok_decomp (e : Env) (num addr : Nat) (len : Int) (s : St)
    (h : (kprv_i2c_master_read e num addr len s).1 = I2C_OK) :
    (hal_i2c_master_setup_read e addr len s).1 = I2C_OK ∧
    kprv_i2c_master_read e num addr len s =
      readLoop e len (hal_i2c_master_setup_read e addr len s).2 := by
  by_cases hs : (hal_i2c_master_setup_read e addr len s).1 = I2C_OK
  · refine ⟨hs, ?_⟩
    simp [kprv_i2c_master_read, hal_i2c_get_handle, hs]
  · exfalso
    apply hs
    simpa [kprv_i2c_master_read, hal_i2c_get_handle, if_pos hs] using h

/-- Shape of a successful length-2 data phase: BTF poll, then stop, then the
two back-to-back data-register reads, nothing else. -/
theorem readTail2_shape (e : Env) (s : St) (h : (readTail e 2 s).1 = I2C_OK) :
    ∃ w b1 b2, w.all isPoll = true ∧
      (readTail e 2 s).2.1 = [b1, b2] ∧
      (readTail e 2 s).2.2.trace =
        s.trace ++ w ++ [Ev.readFlag I2CFlag.BTF true, Ev.stop,
          Ev.readDR b1, Ev.readDR b2] := by
  by_cases hp : (hal_i2c_check_btf_timeout e s).1 = I2C_OK
  · obtain ⟨hbs, hbi⟩ := btf_timeout_shape e s
    obtain ⟨d, ht, hd, _, hok, _⟩ := checkFlagTimeout_shape e I2CFlag.BTF false s
    obtain ⟨d0, hdeq, hp0⟩ := hok (hbi.mp hp)
    refine ⟨d0, e.dr s.d, e.dr (s.d + 1), hp0, ?_, ?_⟩
    · simp [readTail, hp, readDRop, emit, hbs, hd]
    · simp [readTail, hp, readDRop, emit, hbs, hd, ht, hdeq]
  · exfalso
    apply hp
    simpa [readTail, if_pos hp] using h

/-- Shape of a successful length-3 data phase: BTF poll, acknowledge disable,
first read, second BTF poll, stop, the last two reads, nothing else. -/
theorem readTail3_shape (e : Env) (s : St) (h : (readTail e 3 s).1 = I2C_OK) :
    ∃ w1 w2 b1 b2 b3, w1.all isPoll = true ∧ w2.all isPoll = true ∧
      (readTail e 3 s).2.1 = [b1, b2, b3] ∧
      (readTail e 3 s).2.2.trace =
        s.trace ++ w1 ++ [Ev.readFlag I2CFlag.BTF true, Ev.ackDisable, Ev.readDR b1] ++
          w2 ++ [Ev.readFlag I2CFlag.BTF true, Ev.stop,
            Ev.readDR b2, Ev.readDR b3] := by
  by_cases hp1 : (hal_i2c_check_btf_timeout e s).1 = I2C_OK
  · by_cases hp2 : (hal_i2c_check_btf_timeout e
        (readDRop e (emit Ev.ackDisable (hal_i2c_check_btf_timeout e s).2)).2).1 = I2C_OK
    · obtain ⟨hbs1, hbi1⟩ := btf_timeout_shape e s
      obtain ⟨da, hta, hda, _, hoka, _⟩ := checkFlagTimeout_shape e I2CFlag.BTF false s
      obtain ⟨d10, hdeq1, hp10⟩ := hoka (hbi1.mp hp1)
      obtain ⟨hbs2, hbi2⟩ := btf_timeout_shape e
        (readDRop e (emit Ev.ackDisable (hal_i2c_check_btf_timeout e s).2)).2
      obtain ⟨db, htb2, hdb2, _, hokb2, _⟩ := checkFlagTimeout_shape e I2CFlag.BTF false
        (readDRop e (emit Ev.ackDisable (hal_i2c_check_btf_timeout e s).2)).2
      obtain ⟨d20, hdeq2, hp20⟩ := hokb2 (hbi2.mp hp2)
      refine ⟨d10, d20, e.dr s.d, e.dr (s.d + 1), e.dr (s.d + 2), hp10, hp20, ?_, ?_⟩
      · simp [readDRop, emit, hbs1, hda] at hp2 hbs2 hdb2
        simp [readTail, hp1, hp2, readDRop, emit, hbs1, hbs2, hda, hdb2]
      · simp [readDRop, emit, hbs1, hda, hta, hdeq1] at hp2 hbs2 hdb2 htb2
        simp [readTail, hp1, hp2, readDRop, emit, hbs1, hbs2, hda, hdb2, hta, htb2,
          hdeq1, hdeq2]
    · exfalso
      apply hp2
      simpa [readTail, hp1, if_pos hp2] using h
  · exfalso
    apply hp1
    simpa [readTail, if_pos hp1] using h

/-- C2: in every successful read of requested length 2, the acknowledge
disable and the POS bit set happen strictly before the ADDR clear, no stop is
generated during setup (all surrounding events are poll observations), and in
the data phase the stop is generated strictly after byte-transfer-finished is
observed set and strictly before the two back-to-back data-register reads. -/
theorem c2_read2_ordering (e : Env) (num addr : Nat) (s : St)
    (h : (kprv_i2c_master_read e num addr 2 s).1 = I2C_OK) :
    ∃ w1 w2 w3 w4 b1 b2,
      w1.all isPoll = true ∧ w2.all isPoll = true ∧ w3.all isPoll = true ∧
      w4.all isPoll = true ∧
      (kprv_i2c_master_read e num addr 2 s).2.1 = [b1, b2] ∧
      (kprv_i2c_master_read e num addr 2 s).2.2.trace =
        s.trace ++ w1 ++ [Ev.posDisable, Ev.ackEnable, Ev.start] ++ w2 ++
          [Ev.writeDR ((addr * 2 % 65536 % 256) ||| 1)] ++ w3 ++
          [Ev.ackDisable, Ev.posEnable, Ev.clearAddr] ++
          w4 ++ [Ev.readFlag I2CFlag.BTF true, Ev.stop,
            Ev.readDR b1, Ev.readDR b2] := by
  obtain ⟨hsetup, hred⟩ := kprv_read_ok_decomp e num addr 2 s h
  rw [hred] at h ⊢
  rw [readLoop_tail e 2 _ (by omega) (by omega)] at h ⊢
  obtain ⟨w4, b1, b2, hw4, hbytes, htr⟩ := readTail2_shape e _ h
  obtain ⟨w1, w2, w3, hw1, hw2, hw3, _, hst⟩ := setup_read_shape e addr 2 s hsetup
  refine ⟨w1, w2, w3, w4, b1, b2, hw1, hw2, hw3, hw4, hbytes, ?_⟩
  rw [htr, hst]
  simp

/-- Witness for `c2_read2_ordering` on the all-ready oracle. -/
theorem c2_witness :
    ∃ w1 w2 w3 w4 b1 b2,
      w1.all isPoll = true ∧ w2.all isPoll = true ∧ w3.all isPoll = true ∧
      w4.all isPoll = true ∧
      (kprv_i2c_master_read eOk 1 80 2 st0).2.1 = [b1, b2] ∧
      (kprv_i2c_master_read eOk 1 80 2 st0).2.2.trace =
        st0.trace ++ w1 ++ [Ev.posDisable, Ev.ackEnable, Ev.start] ++ w2 ++
          [Ev.writeDR ((80 * 2 % 65536 % 256) ||| 1)] ++ w3 ++
          [Ev.ackDisable, Ev.posEnable, Ev.clearAddr] ++
          w4 ++ [Ev.readFlag I2CFlag.BTF true, Ev.stop,
            Ev.readDR b1, Ev.readDR b2] :=
  c2_read2_ordering eOk 1 80 st0 (by decide)

/-- C3: in every successful read of requested length 3, acknowledge stays
enabled through the address phase (the only acknowledge operations before the
data phase are the two enables), acknowledge is disabled strictly after the
first BTF wait succeeds and strictly before the first data-register read, and
the stop is generated strictly after the second BTF wait succeeds and
strictly before the final two data-register reads. -/
theorem c3_read3_ordering (e : Env) (num addr : Nat) (s : St)
    (h : (kprv_i2c_master_read e num addr 3 s).1 = I2C_OK) :
    ∃ w1 w2 w3 w4 w5 b1 b2 b3,
      w1.all isPoll = true ∧ w2.all isPoll = true ∧ w3.all isPoll = true ∧
      w4.all isPoll = true ∧ w5.all isPoll = true ∧
      (kprv_i2c_master_read e num addr 3 s).2.1 = [b1, b2, b3] ∧
      (kprv_i2c_master_read e num addr 3 s).2.2.trace =
        s.trace ++ w1 ++ [Ev.posDisable, Ev.ackEnable, Ev.start] ++ w2 ++
          [Ev.writeDR ((addr * 2 % 65536 % 256) ||| 1)] ++ w3 ++
          [Ev.ackEnable, Ev.clearAddr] ++
          w4 ++ [Ev.readFlag I2CFlag.BTF true, Ev.ackDisable, Ev.readDR b1] ++
          w5 ++ [Ev.readFlag I2CFlag.BTF true, Ev.stop,
            Ev.readDR b2, Ev.readDR b3] := by
  obtain ⟨hsetup, hred⟩ := kprv_read_ok_decomp e num addr 3 s h
  rw [hred] at h ⊢
  rw [readLoop_tail e 3 _ (by omega) (by omega)] at h ⊢
  obtain ⟨w4, w5, b1, b2, b3, hw4, hw5, hbytes, htr⟩ := readTail3_shape e _ h
  obtain ⟨w1, w2, w3, hw1, hw2, hw3, _, hst⟩ := setup_read_shape e addr 3 s hsetup
  refine ⟨w1, w2, w3, w4, w5, b1, b2, b3, hw1, hw2, hw3, hw4, hw5, hbytes, ?_⟩
  rw [htr, hst]
  simp

/-- Witness for `c3_read3_ordering` on the all-ready oracle. -/
theorem c3_witness :
    ∃ w1 w2 w3 w4 w5 b1 b2 b3,
      w1.all isPoll = true ∧ w2.all isPoll = true ∧ w3.all isPoll = true ∧
      w4.all isPoll = true ∧ w5.all isPoll = true ∧
      (kprv_i2c_master_read eOk 1 80 3 st0).2.1 = [b1, b2, b3] ∧
      (kprv_i2c_master_read eOk 1 80 3 st0).2.2.trace =
        st0.trace ++ w1 ++ [Ev.posDisable, Ev.ackEnable, Ev.start] ++ w2 ++
          [Ev.writeDR ((80 * 2 % 65536 % 256) ||| 1)] ++ w3 ++
          [Ev.ackEnable, Ev.clearAddr] ++
          w4 ++ [Ev.readFlag I2CFlag.BTF true, Ev.ackDisable, Ev.readDR b1] ++
          w5 ++ [Ev.readFlag I2CFlag.BTF true, Ev.stop,
            Ev.readDR b2, Ev.readDR b3] :=
  c3_read3_ordering eOk 1 80 st0 (by decide)

/-- C10: a negative requested length whose busy wait and address phase succeed
takes the default (length above 3) setup arm — acknowledge enable then ADDR
clear — then skips the data loop entirely and returns success with no bytes
stored, no data-register access and no stop condition generated anywhere in
the call. -/
theorem c10_negative_length_read (e : Env) (num addr : Nat) (len : Int) (s : St)
    (hlen : len < 0)
    (hsetup : (hal_i2c_master_setup_read e addr len s).1 = I2C_OK) :
    kprv_i2c_master_read e num addr len s =
      (I2C_OK, [], (hal_i2c_master_setup_read e addr len s).2) ∧
    (∃ w1 w2 w3, w1.all isPoll = true ∧ w2.all isPoll = true ∧ w3.all isPoll = true ∧
      (hal_i2c_master_setup_read e addr len s).2.trace =
        s.trace ++ w1 ++ [Ev.posDisable, Ev.ackEnable, Ev.start] ++ w2 ++
          [Ev.writeDR ((addr * 2 % 65536 % 256) ||| 1)] ++ w3 ++
          [Ev.ackEnable, Ev.clearAddr]) ∧
    (kprv_i2c_master_read e num addr len s).2.2.trace.countP isStop =
      s.trace.countP isStop := by
  have hn : len.toNat = 0 := by omega
  have h1 : kprv_i2c_master_read e num addr len s =
      (I2C_OK, [], (hal_i2c_master_setup_read e addr len s).2) := by
    simp [kprv_i2c_master_read, hal_i2c_get_handle, hsetup, readLoop, hn, readLoopF]
  obtain ⟨w1, w2, w3, hw1, hw2, hw3, _, hst⟩ := setup_read_shape e addr len s hsetup
  rw [if_neg (by omega : ¬len = 0), if_neg (by omega : ¬len = 1),
    if_neg (by omega : ¬len = 2)] at hst
  refine ⟨h1, ⟨w1, w2, w3, hw1, hw2, hw3, hst⟩, ?_⟩
  rw [h1]
  have e1 := all_benign_no_stop (all_poll_benign hw1)
  have e2 := all_benign_no_stop (all_poll_benign hw2)
  have e3 := all_benign_no_stop (all_poll_benign hw3)
  simp [hst, List.countP_append, List.countP_cons, isStop, e1, e2, e3]

/-- Witness for `c10_negative_length_read` at length -1. -/
theorem c10_witness :
    kprv_i2c_master_read eOk 1 80 (-1) st0 =
      (I2C_OK, [], (hal_i2c_master_setup_read eOk 80 (-1) st0).2) ∧
    (∃ w1 w2 w3, w1.all isPoll = true ∧ w2.all isPoll = true ∧ w3.all isPoll = true ∧
      (hal_i2c_master_setup_read eOk 80 (-1) st0).2.trace =
        st0.trace ++ w1 ++ [Ev.posDisable, Ev.ackEnable, Ev.start] ++ w2 ++
          [Ev.writeDR ((80 * 2 % 65536 % 256) ||| 1)] ++ w3 ++
          [Ev.ackEnable, Ev.clearAddr]) ∧
    (kprv_i2c_master_read eOk 1 80 (-1) st0).2.2.trace.countP isStop =
      st0.trace.countP isStop :=
  c10_negative_length_read eOk 1 80 (-1) st0 (by decide) (by decide)

/-- C9: the handle lookup returns a handle for every bus number — including
unregistered ones such as 99, beyond any configured bus — so the public write
and read never return the null-handle outcome; instead they proceed to drive
the bus registers (the trace grows) and here complete with success. -/
theorem c9_bug :
    hal_i2c_get_handle 99 = some 99 ∧
    (kprv_i2c_master_write eOk 99 80 [1, 2] 2 st0).1 = I2C_OK ∧
    (kprv_i2c_master_write eOk 99 80 [1, 2] 2 st0).1 ≠ I2C_ERROR_NULL_HANDLE ∧
    (kprv_i2c_master_write eOk 99 80 [1, 2] 2 st0).2.trace ≠ [] ∧
    (kprv_i2c_master_read eOk 99 80 2 st0).1 ≠ I2C_ERROR_NULL_HANDLE ∧
    (kprv_i2c_master_read eOk 99 80 2 st0).2.2.trace ≠ [] := by
  refine ⟨rfl, by decide, by decide, by decide, by decide, by decide⟩

/-- C4 divergence: on a bus where RXNE reads clear on every poll (no byte has
arrived), a length-1 read still returns success and stores one byte, because
the RXNE wait is invoked with the polarity that waits the flag *out of* the
set state: receive-not-empty is observed exactly once, as clear, and never
observed set before the data register is read. -/
theorem c4_bug :
    (kprv_i2c_master_read eRxLow 1 80 1 st0).1 = I2C_OK ∧
    (kprv_i2c_master_read eRxLow 1 80 1 st0).2.1 = [100] ∧
    (kprv_i2c_master_read eRxLow 1 80 1 st0).2.2.trace.count
      (Ev.readFlag I2CFlag.RXNE true) = 0 ∧
    (kprv_i2c_master_read eRxLow 1 80 1 st0).2.2.trace.count
      (Ev.readFlag I2CFlag.RXNE false) = 1 := by
  refine ⟨by decide, by decide, by decide, by decide⟩

theorem getLast?_append_keep {l1 l2 : List Ev} {a : Ev} (h : l2.getLast? = some a) :
    (l1 ++ l2).getLast? = some a := by
  have hne : l2 ≠ [] := by rintro rfl; simp at h
  rw [List.getLast?_append_of_ne_nil l1 hne, h]

/-- A wait on any flag other than ADDR changes neither the number of stop
conditions nor the number of data-register writes in the trace. -/
theorem wait_counts (e : Env) (flag : I2CFlag) (status : Bool) (s : St)
    (hne : flag ≠ I2CFlag.ADDR) :
    (hal_i2c_check_flag_timeout e flag status s).2.trace.countP isStop =
      s.trace.countP isStop ∧
    (hal_i2c_check_flag_timeout e flag status s).2.trace.countP isWrDR =
      s.trace.countP isWrDR := by
  obtain ⟨d, ht, _, hben, _, _⟩ := checkFlagTimeout_shape e flag status s
  rw [ht]
  simp [List.countP_append, all_benign_no_stop (hben hne), all_benign_no_wr (hben hne)]

theorem txe_counts (e : Env) (s : St) :
    (hal_i2c_check_txe_timeout e s).2.trace.countP isStop = s.trace.countP isStop ∧
    (hal_i2c_check_txe_timeout e s).2.trace.countP isWrDR = s.trace.countP isWrDR := by
  rw [(txe_timeout_shape e s).1]
  exact wait_counts e I2CFlag.TXE false s (by simp)

theorem btf_counts (e : Env) (s : St) :
    (hal_i2c_check_btf_timeout e s).2.trace.countP isStop = s.trace.countP isStop ∧
    (hal_i2c_check_btf_timeout e s).2.trace.countP isWrDR = s.trace.countP isWrDR := by
  rw [(btf_timeout_shape e s).1]
  exact wait_counts e I2CFlag.BTF false s (by simp)

theorem emit_trace (ev : Ev) (s : St) : (emit ev s).trace = s.trace ++ [ev] := rfl

theorem getFlag_trace (e : Env) (f : I2CFlag) (s : St) :
    (getFlag e f s).2.trace = s.trace ++ [Ev.readFlag f (e.flag s.t f)] := rfl

/-- Stop and data-write accounting for the write data loop: a successful run
generates no stop condition and writes exactly the remaining byte count; a
failed run generates exactly one stop condition, as the final operation. -/
theorem writeLoopF_counts (e : Env) (buf : List Nat) :
    ∀ (fuel : Nat) (ofs : Nat) (len : Int) (s : St), len.toNat ≤ fuel →
      ((writeLoopF e buf fuel ofs len s).1 = I2C_OK →
        (writeLoopF e buf fuel ofs len s).2.trace.countP isStop =
          s.trace.countP isStop ∧
        (writeLoopF e buf fuel ofs len s).2.trace.countP isWrDR =
          s.trace.countP isWrDR + len.toNat) ∧
      ((writeLoopF e buf fuel ofs len s).1 ≠ I2C_OK →
        (writeLoopF e buf fuel ofs len s).2.trace.countP isStop =
          s.trace.countP isStop + 1 ∧
        (writeLoopF e buf fuel ofs len s).2.trace.getLast? = some Ev.stop) := by
  intro fuel
  induction fuel with
  | zero =>
    intro ofs len s hf
    have hn : len.toNat = 0 := by omega
    have hres : writeLoopF e buf 0 ofs len s = (I2C_OK, s) := rfl
    rw [hres]
    exact ⟨fun _ => ⟨rfl, by simp [hn]⟩, fun hne => absurd rfl hne⟩
  | succ k ih =>
    intro ofs len s hf
    by_cases hl : 0 < len
    case neg =>
      have hres : writeLoopF e buf (k + 1) ofs len s = (I2C_OK, s) := by
        simp only [writeLoopF]
        rw [if_neg hl]
      rw [hres]
      have hn : len.toNat = 0 := by omega
      exact ⟨fun _ => ⟨rfl, by simp [hn]⟩, fun hne => absurd rfl hne⟩
    case pos =>
      have htxec := txe_counts e s
      by_cases htxe : (hal_i2c_check_txe_timeout e s).1 = I2C_OK
      case neg =>
        have hres : writeLoopF e buf (k + 1) ofs len s =
            ((hal_i2c_check_txe_timeout e s).1,
              emit Ev.stop (hal_i2c_check_txe_timeout e s).2) := by
          simp only [writeLoopF]
          rw [if_pos hl, if_pos htxe]
        rw [hres]
        refine ⟨fun hok => absurd hok htxe, fun _ => ⟨?_, ?_⟩⟩
        · simp only [emit_trace, List.countP_append]
          rw [htxec.1]
          simp [List.countP_cons, isStop]
        · simp only [emit_trace]
          exact getLast?_append_keep (by simp)
      case pos =>
        by_cases hop : (getFlag e I2CFlag.BTF (emit (Ev.writeDR (byteAt buf ofs))
            (hal_i2c_check_txe_timeout e s).2)).1 = true ∧ len - 1 ≠ 0
        case pos =>
          have hbtfc := btf_counts e (emit (Ev.writeDR (byteAt buf (ofs + 1)))
            (getFlag e I2CFlag.BTF (emit (Ev.writeDR (byteAt buf ofs))
              (hal_i2c_check_txe_timeout e s).2)).2)
          by_cases hbtf : (hal_i2c_check_btf_timeout e
              (emit (Ev.writeDR (byteAt buf (ofs + 1)))
                (getFlag e I2CFlag.BTF (emit (Ev.writeDR (byteAt buf ofs))
                  (hal_i2c_check_txe_timeout e s).2)).2)).1 = I2C_OK
          case pos =>
            have hres : writeLoopF e buf (k + 1) ofs len s =
                writeLoopF e buf k (ofs + 2) (len - 2)
                  (hal_i2c_check_btf_timeout e
                    (emit (Ev.writeDR (byteAt buf (ofs + 1)))
                      (getFlag e I2CFlag.BTF (emit (Ev.writeDR (byteAt buf ofs))
                        (hal_i2c_check_txe_timeout e s).2)).2)).2 := by
              simp only [writeLoopF]
              rw [if_pos hl, if_neg (not_not_intro htxe), if_pos hop,
                if_neg (not_not_intro hbtf)]
            rw [hres]
            obtain ⟨ihok, iherr⟩ := ih (ofs + 2) (len - 2) _ (by omega)
            constructor
            · intro hok
              obtain ⟨ho1, ho2⟩ := ihok hok
              constructor
              · rw [ho1, hbtfc.1]
                simp only [emit_trace, getFlag_trace, List.countP_append]
                rw [htxec.1]
                simp [List.countP_cons, isStop]
              · rw [ho2, hbtfc.2]
                simp only [emit_trace, getFlag_trace, List.countP_append]
                rw [htxec.2]
                simp [List.countP_cons, isWrDR]
                omega
            · intro hne
              obtain ⟨he1, he2⟩ := iherr hne
              refine ⟨?_, he2⟩
              rw [he1, hbtfc.1]
              simp only [emit_trace, getFlag_trace, List.countP_append]
              rw [htxec.1]
              simp [List.countP_cons, isStop]
          case neg =>
            have hres : writeLoopF e buf (k + 1) ofs len s =
                ((hal_i2c_check_btf_timeout e
                    (emit (Ev.writeDR (byteAt buf (ofs + 1)))
                      (getFlag e I2CFlag.BTF (emit (Ev.writeDR (byteAt buf ofs))
                        (hal_i2c_check_txe_timeout e s).2)).2)).1,
                  emit Ev.stop (hal_i2c_check_btf_timeout e
                    (emit (Ev.writeDR (byteAt buf (ofs + 1)))
                      (getFlag e I2CFlag.BTF (emit (Ev.writeDR (byteAt buf ofs))
                        (hal_i2c_check_txe_timeout e s).2)).2)).2) := by
              simp only [writeLoopF]
              rw [if_pos hl, if_neg (not_not_intro htxe), if_pos hop, if_pos hbtf]
            rw [hres]
            refine ⟨fun hok => absurd hok hbtf, fun _ => ⟨?_, ?_⟩⟩
            · simp only [emit_trace, List.countP_append]
              rw [hbtfc.1]
              simp only [emit_trace, getFlag_trace, List.countP_append]
              rw [htxec.1]
              simp [List.countP_cons, isStop]
            · simp only [emit_trace]
              exact getLast?_append_keep (by simp)
        case neg =>
          have hbtfc := btf_counts e
            (getFlag e I2CFlag.BTF (emit (Ev.writeDR (byteAt buf ofs))
              (hal_i2c_check_txe_timeout e s).2)).2
          by_cases hbtf : (hal_i2c_check_btf_timeout e
              (getFlag e I2CFlag.BTF (emit (Ev.writeDR (byteAt buf ofs))
                (hal_i2c_check_txe_timeout e s).2)).2).1 = I2C_OK
          case pos =>
            have hres : writeLoopF e buf (k + 1) ofs len s =
                writeLoopF e buf k (ofs + 1) (len - 1)
                  (hal_i2c_check_btf_timeout e
                    (getFlag e I2CFlag.BTF (emit (Ev.writeDR (byteAt buf ofs))
                      (hal_i2c_check_txe_timeout e s).2)).2).2 := by
              simp only [writeLoopF]
              rw [if_pos hl, if_neg (not_not_intro htxe), if_neg hop,
                if_neg (not_not_intro hbtf)]
            rw [hres]
            obtain ⟨ihok, iherr⟩ := ih (ofs + 1) (len - 1) _ (by omega)
            constructor
            · intro hok
              obtain ⟨ho1, ho2⟩ := ihok hok
              constructor
              · rw [ho1, hbtfc.1]
                simp only [emit_trace, getFlag_trace, List.countP_append]
                rw [htxec.1]
                simp [List.countP_cons, isStop]
              · rw [ho2, hbtfc.2]
                simp only [emit_trace, getFlag_trace, List.countP_append]
                rw [htxec.2]
                simp [List.countP_cons, isWrDR]
                omega
            · intro hne
              obtain ⟨he1, he2⟩ := iherr hne
              refine ⟨?_, he2⟩
              rw [he1, hbtfc.1]
              simp only [emit_trace, getFlag_trace, List.countP_append]
              rw [htxec.1]
              simp [List.countP_cons, isStop]
          case neg =>
            have hres : writeLoopF e buf (k + 1) ofs len s =
                ((hal_i2c_check_btf_timeout e
                    (getFlag e I2CFlag.BTF (emit (Ev.writeDR (byteAt buf ofs))
                      (hal_i2c_check_txe_timeout e s).2)).2).1,
                  emit Ev.stop (hal_i2c_check_btf_timeout e
                    (getFlag e I2CFlag.BTF (emit (Ev.writeDR (byteAt buf ofs))
                      (hal_i2c_check_txe_timeout e s).2)).2).2) := by
              simp only [writeLoopF]
              rw [if_pos hl, if_neg (not_not_intro htxe), if_neg hop, if_pos hbtf]
            rw [hres]
            refine ⟨fun hok => absurd hok hbtf, fun _ => ⟨?_, ?_⟩⟩
            · simp only [emit_trace, List.countP_append]
              rw [hbtfc.1]
              simp only [emit_trace, getFlag_trace, List.countP_append]
              rw [htxec.1]
              simp [List.countP_cons, isStop]
            · simp only [emit_trace]
              exact getLast?_append_keep (by simp)

/-- C5: when the address phase (setup) fails, the write engine returns that
error having performed no register operation of its own — in particular no
stop; when the address phase succeeds, the engine generates exactly one stop
condition, as its final register operation (after all bytes on success, or
immediately after the failing wait on a data-phase error), and on success it
performs exactly `len.toNat` data-register writes after the setup. -/
theorem c5_write_stop_discipline (e : Env) (num addr : Nat) (buf : List Nat)
    (len : Int) (s : St) :
    ((hal_i2c_master_setup_write e addr s).1 ≠ I2C_OK →
      kprv_i2c_master_write e num addr buf len s = hal_i2c_master_setup_write e addr s) ∧
    ((hal_i2c_master_setup_write e addr s).1 = I2C_OK →
      (kprv_i2c_master_write e num addr buf len s).2.trace.countP isStop =
        (hal_i2c_master_setup_write e addr s).2.trace.countP isStop + 1 ∧
      (kprv_i2c_master_write e num addr buf len s).2.trace.getLast? = some Ev.stop ∧
      ((kprv_i2c_master_write e num addr buf len s).1 = I2C_OK →
        (kprv_i2c_master_write e num addr buf len s).2.trace.countP isWrDR =
          (hal_i2c_master_setup_write e addr s).2.trace.countP isWrDR + len.toNat)) := by
  constructor
  · intro hfail
    simp only [kprv_i2c_master_write, hal_i2c_get_handle]
    rw [if_pos hfail]
  · intro hsetup
    obtain ⟨lok, lerr⟩ := writeLoopF_counts e buf len.toNat 0 len
      (hal_i2c_master_setup_write e addr s).2 (Nat.le_refl _)
    by_cases hloop : (writeLoopF e buf len.toNat 0 len
        (hal_i2c_master_setup_write e addr s).2).1 = I2C_OK
    · have hres : kprv_i2c_master_write e num addr buf len s =
          (I2C_OK, emit Ev.stop (writeLoopF e buf len.toNat 0 len
            (hal_i2c_master_setup_write e addr s).2).2) := by
        simp only [kprv_i2c_master_write, hal_i2c_get_handle]
        rw [if_neg (not_not_intro hsetup), if_pos hloop]
      rw [hres]
      obtain ⟨ho1, ho2⟩ := lok hloop
      refine ⟨?_, ?_, ?_⟩
      · simp only [emit_trace, List.countP_append]
        rw [ho1]
        simp [List.countP_cons, isStop]
      · simp only [emit_trace]
        exact getLast?_append_keep (by simp)
      · intro _
        simp only [emit_trace, List.countP_append]
        rw [ho2]
        simp [List.countP_cons, isWrDR]
    · have hres : kprv_i2c_master_write e num addr buf len s =
          writeLoopF e buf len.toNat 0 len (hal_i2c_master_setup_write e addr s).2 := by
        simp only [kprv_i2c_master_write, hal_i2c_get_handle]
        rw [if_neg (not_not_intro hsetup), if_neg hloop]
      rw [hres]
      obtain ⟨he1, he2⟩ := lerr hloop
      exact ⟨he1, he2, fun hok => absurd hok hloop⟩

/-- Witness for `c5_write_stop_discipline`: a successful 2-byte write on the
all-ready oracle performs exactly one stop, as its last operation, and two
data-register writes after setup. -/
theorem c5_witness :
    (kprv_i2c_master_write eOk 1 80 [7, 8] 2 st0).2.trace.countP isStop =
      (hal_i2c_master_setup_write eOk 80 st0).2.trace.countP isStop + 1 ∧
    (kprv_i2c_master_write eOk 1 80 [7, 8] 2 st0).2.trace.getLast? = some Ev.stop ∧
    (kprv_i2c_master_write eOk 1 80 [7, 8] 2 st0).2.trace.countP isWrDR =
      (hal_i2c_master_setup_write eOk 80 st0).2.trace.countP isWrDR + 2 := by
  obtain ⟨h1, h2, h3⟩ := (c5_write_stop_discipline eOk 1 80 [7, 8] 2 st0).2 (by decide)
  exact ⟨h1, h2, by simpa using h3 (by decide)⟩

/-- Core refinement induction for reads longer than 3: the general-case loop
either stops at a failing RXNE wait before the remaining count reaches 3, or
it reaches a remaining count of exactly 2 or 3 and from that point on is
literally the specialized straight-line tail (`readTail`) run on the state
and byte stream accumulated so far. -/
theorem c1_aux (e : Env) : ∀ (fuel : Nat) (len : Int) (s : St),
    len.toNat ≤ fuel → 3 < len →
    (∃ pre s2, readLoopF e fuel len s =
        ((hal_i2c_check_flag_timeout e I2CFlag.RXNE true s2).1, pre,
          (hal_i2c_check_flag_timeout e I2CFlag.RXNE true s2).2) ∧
      (hal_i2c_check_flag_timeout e I2CFlag.RXNE true s2).1 ≠ I2C_OK) ∨
    (∃ pre s2 r, (r = (2 : Int) ∨ r = 3) ∧
      readLoopF e fuel len s =
        ((readTail e r s2).1, pre ++ (readTail e r s2).2.1,
          (readTail e r s2).2.2)) := by
  intro fuel
  induction fuel with
  | zero =>
    intro len s hf h
    exact absurd hf (by omega)
  | succ k ih =>
    intro len s hf h
    by_cases hrx : (hal_i2c_check_flag_timeout e I2CFlag.RXNE true s).1 = I2C_OK
    · by_cases hq : (getFlag e I2CFlag.BTF
          (readDRop e (hal_i2c_check_flag_timeout e I2CFlag.RXNE true s).2).2).1 = true
      · -- opportunistic second read: remaining drops by 2
        have hres : readLoopF e (k + 1) len s =
            ((readLoopF e k (len - 2)
                (readDRop e (getFlag e I2CFlag.BTF
                  (readDRop e (hal_i2c_check_flag_timeout e I2CFlag.RXNE true s).2).2).2).2).1,
              (readDRop e (hal_i2c_check_flag_timeout e I2CFlag.RXNE true s).2).1 ::
                (readDRop e (getFlag e I2CFlag.BTF
                  (readDRop e (hal_i2c_check_flag_timeout e I2CFlag.RXNE true s).2).2).2).1 ::
                (readLoopF e k (len - 2)
                  (readDRop e (getFlag e I2CFlag.BTF
                    (readDRop e (hal_i2c_check_flag_timeout e I2CFlag.RXNE true s).2).2).2).2).2.1,
              (readLoopF e k (len - 2)
                (readDRop e (getFlag e I2CFlag.BTF
                  (readDRop e (hal_i2c_check_flag_timeout e I2CFlag.RXNE true s).2).2).2).2).2.2) := by
          simp only [readLoopF]
          rw [if_pos (by omega : (0 : Int) < len), if_neg (by omega : ¬len = 1),
            if_neg (by omega : ¬len = 2), if_neg (by omega : ¬len = 3),
            if_neg (not_not_intro hrx), if_pos hq]
        by_cases htail : len - 2 ≤ 3
        · refine Or.inr ⟨[(readDRop e (hal_i2c_check_flag_timeout e I2CFlag.RXNE true s).2).1,
            (readDRop e (getFlag e I2CFlag.BTF
              (readDRop e (hal_i2c_check_flag_timeout e I2CFlag.RXNE true s).2).2).2).1],
            (readDRop e (getFlag e I2CFlag.BTF
              (readDRop e (hal_i2c_check_flag_timeout e I2CFlag.RXNE true s).2).2).2).2,
            len - 2, by omega, ?_⟩
          rw [hres, readLoopF_tail e k (len - 2) _ (by omega) htail (by omega)]
          rfl
        · rcases ih (len - 2)
            (readDRop e (getFlag e I2CFlag.BTF
              (readDRop e (hal_i2c_check_flag_timeout e I2CFlag.RXNE true s).2).2).2).2
            (by omega) (by omega) with ⟨pre, s2, heq, hne⟩ | ⟨pre, s2, r, hr, heq⟩
          · refine Or.inl ⟨(readDRop e (hal_i2c_check_flag_timeout e I2CFlag.RXNE true s).2).1 ::
              (readDRop e (getFlag e I2CFlag.BTF
                (readDRop e (hal_i2c_check_flag_timeout e I2CFlag.RXNE true s).2).2).2).1 ::
              pre, s2, ?_, hne⟩
            rw [hres, heq]
          · refine Or.inr ⟨(readDRop e (hal_i2c_check_flag_timeout e I2CFlag.RXNE true s).2).1 ::
              (readDRop e (getFlag e I2CFlag.BTF
                (readDRop e (hal_i2c_check_flag_timeout e I2CFlag.RXNE true s).2).2).2).1 ::
              pre, s2, r, hr, ?_⟩
            rw [hres, heq]
            rfl
      · -- single read: remaining drops by 1
        have hres : readLoopF e (k + 1) len s =
            ((readLoopF e k (len - 1)
                (getFlag e I2CFlag.BTF
                  (readDRop e (hal_i2c_check_flag_timeout e I2CFlag.RXNE true s).2).2).2).1,
              (readDRop e (hal_i2c_check_flag_timeout e I2CFlag.RXNE true s).2).1 ::
                (readLoopF e k (len - 1)
                  (getFlag e I2CFlag.BTF
                    (readDRop e (hal_i2c_check_flag_timeout e I2CFlag.RXNE true s).2).2).2).2.1,
              (readLoopF e k (len - 1)
                (getFlag e I2CFlag.BTF
                  (readDRop e (hal_i2c_check_flag_timeout e I2CFlag.RXNE true s).2).2).2).2.2) := by
          simp only [readLoopF]
          rw [if_pos (by omega : (0 : Int) < len), if_neg (by omega : ¬len = 1),
            if_neg (by omega : ¬len = 2), if_neg (by omega : ¬len = 3),
            if_neg (not_not_intro hrx), if_neg hq]
        by_cases htail : len - 1 ≤ 3
        · refine Or.inr ⟨[(readDRop e (hal_i2c_check_flag_timeout e I2CFlag.RXNE true s).2).1],
            (getFlag e I2CFlag.BTF
              (readDRop e (hal_i2c_check_flag_timeout e I2CFlag.RXNE true s).2).2).2,
            len - 1, by omega, ?_⟩
          rw [hres, readLoopF_tail e k (len - 1) _ (by omega) htail (by omega)]
          rfl
        · rcases ih (len - 1)
            (getFlag e I2CFlag.BTF
              (readDRop e (hal_i2c_check_flag_timeout e I2CFlag.RXNE true s).2).2).2
            (by omega) (by omega) with ⟨pre, s2, heq, hne⟩ | ⟨pre, s2, r, hr, heq⟩
          · refine Or.inl ⟨(readDRop e (hal_i2c_check_flag_timeout e I2CFlag.RXNE true s).2).1 ::
              pre, s2, ?_, hne⟩
            rw [hres, heq]
          · refine Or.inr ⟨(readDRop e (hal_i2c_check_flag_timeout e I2CFlag.RXNE true s).2).1 ::
              pre, s2, r, hr, ?_⟩
            rw [hres, heq]
            rfl
    · refine Or.inl ⟨[], s, ?_, hrx⟩
      simp only [readLoopF]
      rw [if_pos (by omega : (0 : Int) < len), if_neg (by omega : ¬len = 1),
        if_neg (by omega : ¬len = 2), if_neg (by omega : ¬len = 3), if_pos hrx]

/-- C1: every read of length greater than 3 either aborts at a failing RXNE
wait while more than 3 bytes remain, or reduces exactly to the specialized
length-3/2/1/0 tail: from the moment the remaining count drops to 3 or 2 (the
only values the general case can leave), the returned status, the remaining
stored bytes and the final state are those of the straight-line tail
(`readTail`, the code of the specialized cases) run at the remaining count
from the current state — i.e. of a fresh call with that length performed
after its address phase. -/
theorem c1_general_read_reduces_to_tail (e : Env) (len : Int) (s : St) (h : 3 < len) :
    (∃ pre s2, readLoop e len s =
        ((hal_i2c_check_flag_timeout e I2CFlag.RXNE true s2).1, pre,
          (hal_i2c_check_flag_timeout e I2CFlag.RXNE true s2).2) ∧
      (hal_i2c_check_flag_timeout e I2CFlag.RXNE true s2).1 ≠ I2C_OK) ∨
    (∃ pre s2 r, (r = (2 : Int) ∨ r = 3) ∧
      readLoop e len s =
        ((readTail e r s2).1, pre ++ (readTail e r s2).2.1,
          (readTail e r s2).2.2)) :=
  c1_aux e len.toNat len s (Nat.le_refl _) h

/-- Witness for `c1_general_read_reduces_to_tail`: a length-4 read on the
all-ready oracle factors through the length-2 tail. -/
theorem c1_witness :
    (∃ pre s2, readLoop eOk 4 st0 =
        ((hal_i2c_check_flag_timeout eOk I2CFlag.RXNE true s2).1, pre,
          (hal_i2c_check_flag_timeout eOk I2CFlag.RXNE true s2).2) ∧
      (hal_i2c_check_flag_timeout eOk I2CFlag.RXNE true s2).1 ≠ I2C_OK) ∨
    (∃ pre s2 r, (r = (2 : Int) ∨ r = 3) ∧
      readLoop eOk 4 st0 =
        ((readTail eOk r s2).1, pre ++ (readTail eOk r s2).2.1,
          (readTail eOk r s2).2.2)) :=
  c1_general_read_reduces_to_tail eOk 4 st0 (by decide)
